import Mathlib

/-!
# cosmwebwasm — shallow embedding and verification

A model of the metered, sandboxed, transactional contract-execution
environment of this repository, together with proofs of the behavioural
properties stated in its specification.

The JavaScript harness (`src/index.js`) drives three entry points
(`vm_instantiate`, `vm_execute`, `vm_query`) over an explicit serialized
`WorldState` snapshot; the virtual machine itself (gas meter, storage
engine, registry, host bridge, dispatcher) ships as a compiled WebAssembly
package that is not part of the source tree.  Definitions below that embed
the missing machine are marked `Modelled from the spec:`; definitions that
embed `src/index.js` (notably `normalizeJson`) follow that file directly.

Conventions of the embedding:
* addresses and code ids are kept in their JSON-object-key form, i.e.
  decimal strings (the harness writes `String(sender)` and numeric object
  keys become strings in JSON);
* byte strings (storage keys/values, query responses) are `String`;
* machine integers of the gas meter are unbounded `Int` with explicit
  non-negativity stated as an invariant, as gas arithmetic in the spec is
  pure bookkeeping with no wrap-around;
* fallible operations return `Except VmError`.
-/

namespace CosmWebWasm

/-- Key/value pair of a contract store (byte strings). -/
abbrev KV := String × String

/-- Lexicographic byte-string comparison on the underlying characters
(an executable equivalent of the library's string order, written out so
that it evaluates by kernel reduction). -/
def strLtAux : List Char → List Char → Bool
  | [], [] => false
  | [], _ :: _ => true
  | _ :: _, [] => false
  | c :: cs, d :: ds => if c < d then true else if d < c then false else strLtAux cs ds

/-- `strLt a b` is true when `a` sorts strictly before `b`. -/
def strLt (a b : String) : Bool := strLtAux a.data b.data

/-- Decimal digit value of a character, if it is a digit. -/
def digitVal? (c : Char) : Option Nat :=
  if '0' ≤ c ∧ c ≤ '9' then some (c.toNat - 48) else none

/-- Folds decimal digits into a number, failing on a non-digit. -/
def decDigits? : List Char → Nat → Option Nat
  | [], acc => some acc
  | c :: cs, acc =>
    match digitVal? c with
    | none => none
    | some d => decDigits? cs (acc * 10 + d)

/-- Parses a non-empty decimal numeral (the guest-visible equivalent of
the library's string-to-number parse, written out so that it evaluates by
kernel reduction). -/
def strToNat? (s : String) : Option Nat :=
  match s.data with
  | [] => none
  | cs => decDigits? cs 0

/-- Modelled from the spec: the error taxonomy of §7, plus `InvalidIterator`
from §4.2. -/
inductive VmError where
  | InputError
  | OutOfGas
  | ResourceLimitExceeded
  | GuestTrap
  | ContractError (message : String)
  | WriteInQuery
  | InvalidIterator
  | StateInvariantViolation
deriving DecidableEq

/-- Modelled from the spec: `GasState` is a stack of remaining-gas
checkpoints whose top (`active`) is the active budget; `parents` are the
enclosing checkpoints, innermost first.  Keeping the top as a separate
field makes non-emptiness of the stack structural. -/
structure GasState where
  active : Int
  parents : List Int
deriving DecidableEq

/-- The remaining budget of the active checkpoint. -/
def GasState.remaining (g : GasState) : Int := g.active

/-- Modelled from the spec: `charge(n)` deducts `n` from the top checkpoint;
fails `OutOfGas` if `n` exceeds the remaining budget, producing no updated
state. -/
def GasState.charge (n : Nat) (g : GasState) : Except VmError GasState :=
  if (n : Int) ≤ g.active then .ok ⟨g.active - n, g.parents⟩ else .error .OutOfGas

/-- Modelled from the spec: `checkpoint()` pushes a copy of the current
remaining gas on entering a nested scope. -/
def GasState.checkpoint (g : GasState) : GasState :=
  ⟨g.active, g.active :: g.parents⟩

/-- Modelled from the spec: `commit()` pops a checkpoint, propagating the
consumed amount to the parent (the child's remaining budget becomes the
parent's). -/
def GasState.commit (g : GasState) : GasState :=
  match g.parents with
  | [] => g
  | _ :: rest => ⟨g.active, rest⟩

/-- Modelled from the spec: `rollback()` pops a checkpoint; gas already
spent by a reverted scope is not refunded, so the propagation is the same
as on commit. -/
def GasState.rollback (g : GasState) : GasState := g.commit

/-- Iteration order of a range scan. -/
inductive ScanOrder where
  | ascending
  | descending
deriving DecidableEq

/-- Per-contract store: an ordered key→bytes mapping plus the call-scoped
iterator arena (integer handle → remaining cursor entries). -/
structure ContractStorage where
  data : List KV
  iterators : List (Nat × List KV)
deriving DecidableEq

/-- The store of a contract that has no entry yet. -/
def emptyStorage : ContractStorage := ⟨[], []⟩

/-- Lookup in a string-keyed association list (used for storage data,
codes, contracts and JSON objects). -/
def alookup {β : Type} : List (String × β) → String → Option β
  | [], _ => none
  | (k, v) :: rest, key => if k = key then some v else alookup rest key

/-- Lookup in the integer-keyed iterator arena. -/
def alookupN {β : Type} : List (Nat × β) → Nat → Option β
  | [], _ => none
  | (k, v) :: rest, key => if k = key then some v else alookupN rest key

/-- Modelled from the spec: `put` inserts into the ordered mapping, keeping
keys strictly ascending and unique (overwriting an equal key). -/
def insertKV : List KV → String → String → List KV
  | [], k, v => [(k, v)]
  | (k', v') :: rest, k, v =>
    if strLt k k' then (k, v) :: (k', v') :: rest
    else if k = k' then (k, v) :: rest
    else (k', v') :: insertKV rest k v

/-- Modelled from the spec: `remove` deletes a key from the mapping. -/
def removeKV : List KV → String → List KV
  | [], _ => []
  | (k', v') :: rest, k => if k' = k then rest else (k', v') :: removeKV rest k

/-- Whether a key falls in the half-open range `[a, b)`. -/
def inRange (a b k : String) : Bool := !strLt k a && strLt k b

/-- Ascending scan of `[a, b)`: the in-range entries of the ordered store,
in store (key) order. -/
def scanAsc (data : List KV) (a b : String) : List KV :=
  data.filter (fun kv => inRange a b kv.1)

/-- Descending scan worker: walks the store front to back, prepending
in-range entries, so the result comes out back to front. -/
def scanDescAux (a b : String) : List KV → List KV → List KV
  | [], acc => acc
  | kv :: rest, acc => scanDescAux a b rest (if inRange a b kv.1 then kv :: acc else acc)

/-- Descending scan of `[a, b)`. -/
def scanDesc (data : List KV) (a b : String) : List KV :=
  scanDescAux a b data []

/-- Modelled from the spec: `scan(contract, start, end, order)` materialises
the half-open range `[a, b)` in the requested order. -/
def scanRange (data : List KV) (a b : String) : ScanOrder → List KV
  | .ascending => scanAsc data a b
  | .descending => scanDesc data a b

/-- Allocates a fresh iterator handle over the scanned range. -/
def openIterator (cs : ContractStorage) (a b : String) (ord : ScanOrder) :
    Nat × ContractStorage :=
  let h := cs.iterators.length
  (h, { cs with iterators := cs.iterators ++ [(h, scanRange cs.data a b ord)] })

/-- Replaces the cursor of handle `h` in the arena. -/
def updateIterator : List (Nat × List KV) → Nat → List KV → List (Nat × List KV)
  | [], _, _ => []
  | (k, c) :: rest, h, cursor =>
    if k = h then (h, cursor) :: rest else (k, c) :: updateIterator rest h cursor

/-- Modelled from the spec: `next(handle)` returns the next entry or the
exhausted marker (`none`); an unknown handle yields `none` at this level,
reported as `InvalidIterator` by the host bridge.  An exhausted iterator is
left in place, so every later `next` sees the marker again. -/
def iteratorNext (cs : ContractStorage) (h : Nat) :
    Option (Option KV × ContractStorage) :=
  match alookupN cs.iterators h with
  | none => none
  | some [] => some (none, cs)
  | some (kv :: rest) =>
    some (some kv, { cs with iterators := updateIterator cs.iterators h rest })

/-- Modelled from the spec: a guest execution is the tree of host-bridge
operations it performs (§4.4), each continuation consuming the host's
answer, ending in an explicit result or a contract-reported failure.  This
closed operation set stands for the untrusted WebAssembly module, which is
outside the source tree. -/
inductive Guest (α : Type) where
  | ret : α → Guest α
  | fail : String → Guest α
  | get : String → (Option String → Guest α) → Guest α
  | put : String → String → Guest α → Guest α
  | remove : String → Guest α → Guest α
  | scan : String → String → ScanOrder → (Nat → Guest α) → Guest α
  | next : Nat → (Option KV → Guest α) → Guest α

/-- Gas price of a `get`, proportional to the payload. -/
def gasGetCost (k : String) : Nat := 1 + k.length

/-- Gas price of a `put`, proportional to the payload. -/
def gasPutCost (k v : String) : Nat := 1 + k.length + v.length

/-- Gas price of a `remove`. -/
def gasRemoveCost (k : String) : Nat := 1 + k.length

/-- Gas price of opening a scan. -/
def gasScanCost : Nat := 1

/-- Gas price of an iterator step. -/
def gasNextCost : Nat := 1

/-- Modelled from the spec: the host-function bridge interpreter.  Each
operation is gas-charged before execution; in read-only (query) mode any
mutation fails `WriteInQuery`; an unknown iterator handle fails
`InvalidIterator`. -/
def interp {α : Type} (readOnly : Bool) :
    Guest α → ContractStorage → GasState → Except VmError (α × ContractStorage × GasState)
  | .ret a, cs, g => .ok (a, cs, g)
  | .fail message, _, _ => .error (.ContractError message)
  | .get k f, cs, g =>
    match GasState.charge (gasGetCost k) g with
    | .error e => .error e
    | .ok g' => interp readOnly (f (alookup cs.data k)) cs g'
  | .put k v cont, cs, g =>
    if readOnly then .error .WriteInQuery
    else
      match GasState.charge (gasPutCost k v) g with
      | .error e => .error e
      | .ok g' => interp readOnly cont { cs with data := insertKV cs.data k v } g'
  | .remove k cont, cs, g =>
    if readOnly then .error .WriteInQuery
    else
      match GasState.charge (gasRemoveCost k) g with
      | .error e => .error e
      | .ok g' => interp readOnly cont { cs with data := removeKV cs.data k } g'
  | .scan a b ord f, cs, g =>
    match GasState.charge gasScanCost g with
    | .error e => .error e
    | .ok g' =>
      match openIterator cs a b ord with
      | (h, cs') => interp readOnly (f h) cs' g'
  | .next h f, cs, g =>
    match GasState.charge gasNextCost g with
    | .error e => .error e
    | .ok g' =>
      match iteratorNext cs h with
      | none => .error .InvalidIterator
      | some (res, cs') => interp readOnly (f res) cs' g'

/-- Registered contract metadata (`code_id`, optional `admin`, `label`),
as in the harness's initial state and the spec's data model. -/
structure ContractInfo where
  code_id : String
  admin : Option String
  label : String
deriving DecidableEq

/-- The world state threaded through every call: per-address stores, the
code and contract registries, the account counter, the transaction depth
and the gas checkpoint stack.  Registries are association lists keyed by
the JSON-object-key (decimal string) form of addresses and code ids. -/
structure WorldState where
  storage : List (String × ContractStorage)
  codes : List (String × List Nat)
  contracts : List (String × ContractInfo)
  next_account_id : Nat
  transaction_depth : Nat
  gas : GasState
deriving DecidableEq

/-- An emitted event: a type tag and ordered key/value attributes.
The JSON field named `type` is called `ty` here (`type` is reserved). -/
structure Event where
  ty : String
  attributes : List (String × String)
deriving DecidableEq

/-- A funds coin attached to a message. -/
structure Coin where
  denom : String
  amount : String
deriving DecidableEq

/-- The message info handed to the guest: sender address and funds. -/
structure MessageInfo where
  sender : String
  funds : List Coin
deriving DecidableEq

/-- Writes back the store of one address, preserving the entry order of the
storage map (adding a new entry at the end if the address had none). -/
def setStorage (s : List (String × ContractStorage)) (a : String) (cs : ContractStorage) :
    List (String × ContractStorage) :=
  match s with
  | [] => [(a, cs)]
  | (a', cs') :: rest =>
    if a' = a then (a, cs) :: rest else (a', cs') :: setStorage rest a cs

/-- The data of one contract's store, viewed through the empty default. -/
def dataOf (st : WorldState) (a : String) : List KV :=
  ((alookup st.storage a).getD emptyStorage).data

/-- Modelled from the spec: the configured maximum transaction depth. -/
def transactionDepthLimit : Nat := 1024

/-- Modelled from the spec: entering a call scope pushes a gas checkpoint
and increments the transaction depth. -/
def beginTx (st : WorldState) : WorldState :=
  { st with gas := st.gas.checkpoint, transaction_depth := st.transaction_depth + 1 }

/-- Modelled from the spec: leaving a call scope pops the checkpoint,
merging consumption upward, and decrements the transaction depth. -/
def commitTx (st : WorldState) : WorldState :=
  { st with gas := st.gas.commit, transaction_depth := st.transaction_depth - 1 }

/-- Modelled from the spec: the execution dispatcher (§4.5).  Validation:
the target address must be registered and its code present (else
`InputError`), the transaction depth must be below the configured maximum
(else `ResourceLimitExceeded`), and the gas budget must be positive (else
`OutOfGas`).  Then a checkpoint and a storage transaction scope are opened,
the guest runs against the host bridge, iterators are closed at call end,
and the scope commits.  On any failure the working copies are discarded
and only the error is surfaced: the caller keeps the snapshot it passed
in. -/
def dispatch {α : Type} (readOnly : Bool) (prog : Guest α) (addr : String) (st : WorldState) :
    Except VmError (α × WorldState) :=
  match alookup st.contracts addr with
  | none => .error .InputError
  | some info =>
    match alookup st.codes info.code_id with
    | none => .error .InputError
    | some _ =>
      if transactionDepthLimit ≤ st.transaction_depth then .error .ResourceLimitExceeded
      else if st.gas.remaining ≤ 0 then .error .OutOfGas
      else
        match interp readOnly prog ((alookup (beginTx st).storage addr).getD emptyStorage)
            (beginTx st).gas with
        | .error e => .error e
        | .ok (a, cs', g') =>
          .ok (a, commitTx { beginTx st with
                storage := setStorage (beginTx st).storage addr { cs' with iterators := [] },
                gas := g' })

/-- The call as seen from the caller: the result, paired with the state the
caller holds once the call returns.  A failing call surfaces no state, so
the caller is left with exactly the snapshot it passed in; a successful
call hands over the committed state. -/
def dispatchFinal {α : Type} (readOnly : Bool) (prog : Guest α) (addr : String)
    (st : WorldState) : Except VmError (α × WorldState) × WorldState :=
  match dispatch readOnly prog addr st with
  | .error e => (.error e, st)
  | .ok (a, st') => (.ok (a, st'), st')

/-! ## The cw20 token contract

The scenarios of the spec run against the `cw20_base` token bytecode,
which is fetched by the harness and not part of the source tree.  The
contract behaviour below is modelled from the spec's scenarios: token info
and balances live in the contract store; minting requires the registered
minter and grows the recipient balance and the total supply. -/

/-- A JSON value (the subset exchanged over the entry-point boundary).
Objects carry their fields in order, as JavaScript objects do. -/
inductive Json where
  | null : Json
  | bool : Bool → Json
  | num : Int → Json
  | str : String → Json
  | arr : List Json → Json
  | obj : List (String × Json) → Json

/-- An initial balance entry of the instantiate message. -/
structure Cw20Coin where
  address : String
  amount : String
deriving DecidableEq

/-- The minter data of the instantiate message. -/
structure MinterData where
  minter : String
  cap : Option String
deriving DecidableEq

/-- Modelled from the spec: the cw20 instantiate message of scenario 1. -/
structure Cw20InstantiateMsg where
  name : String
  symbol : String
  decimals : Nat
  initial_balances : List Cw20Coin
  mint : Option MinterData
deriving DecidableEq

/-- Modelled from the spec: the cw20 execute messages exercised by the
scenarios. -/
inductive Cw20ExecuteMsg where
  | mint (recipient : String) (amount : String)
deriving DecidableEq

/-- Modelled from the spec: the cw20 query messages exercised by the
scenarios. -/
inductive Cw20QueryMsg where
  | token_info
  | balance (address : String)
deriving DecidableEq

/-- Storage key of a holder's balance. -/
def balanceKey (a : String) : String := "balance:" ++ a

/-- Sums the decimal amounts of the initial balances, failing on a
non-numeric amount. -/
def totalOfBalances : List Cw20Coin → Option Nat
  | [] => some 0
  | c :: rest =>
    match strToNat? c.amount, totalOfBalances rest with
    | some n, some m => some (n + m)
    | _, _ => none

/-- Emits the `put`s for the initial balances, then continues. -/
def putBalances : List Cw20Coin → Guest (List Event) → Guest (List Event)
  | [], k => k
  | c :: rest, k => .put (balanceKey c.address) c.amount (putBalances rest k)

/-- Emits the `put` for the minter registration, if any, then continues. -/
def putMinter : Option MinterData → Guest (List Event) → Guest (List Event)
  | none, k => k
  | some md, k => .put "minter" md.minter k

/-- Modelled from the spec: cw20 instantiate stores the token info, the
optional minter and the initial balances. -/
def cw20_instantiate (info : MessageInfo) (m : Cw20InstantiateMsg) : Guest (List Event) :=
  match totalOfBalances m.initial_balances with
  | none => .fail "Invalid amount"
  | some total =>
    .put "token_info:name" m.name
      (.put "token_info:symbol" m.symbol
        (.put "token_info:decimals" (Nat.repr m.decimals)
          (.put "token_info:total_supply" (Nat.repr total)
            (putMinter m.mint
              (putBalances m.initial_balances
                (.ret [⟨"wasm", [("action", "instantiate"), ("sender", info.sender)]⟩]))))))

/-- Modelled from the spec: cw20 execute.  `mint` requires the sender to be
the registered minter (else an explicit contract failure), then grows the
recipient's balance and the total supply by the decimal amount. -/
def cw20_execute (info : MessageInfo) : Cw20ExecuteMsg → Guest (List Event)
  | .mint recipient amount =>
    .get "minter" (fun minter? =>
      match minter? with
      | none => .fail "Unauthorized"
      | some minter =>
        if minter = info.sender then
          match strToNat? amount with
          | none => .fail "Invalid amount"
          | some amt =>
            .get (balanceKey recipient) (fun bal? =>
              match strToNat? (bal?.getD "0") with
              | none => .fail "Corrupted balance"
              | some bal =>
                .get "token_info:total_supply" (fun supply? =>
                  match strToNat? (supply?.getD "0") with
                  | none => .fail "Corrupted supply"
                  | some supply =>
                    .put (balanceKey recipient) (Nat.repr (bal + amt))
                      (.put "token_info:total_supply" (Nat.repr (supply + amt))
                        (.ret [⟨"wasm", [("action", "mint"), ("to", recipient), ("amount", amount)]⟩]))))
        else .fail "Unauthorized")

/-- Modelled from the spec: cw20 query.  `token_info` reports name, symbol,
decimals and total supply; `balance` reports a holder's balance, zero by
default. -/
def cw20_query : Cw20QueryMsg → Guest Json
  | .token_info =>
    .get "token_info:name" (fun name? =>
      match name? with
      | none => .fail "not instantiated"
      | some name =>
        .get "token_info:symbol" (fun symbol? =>
          match symbol? with
          | none => .fail "not instantiated"
          | some symbol =>
            .get "token_info:decimals" (fun decimals? =>
              match decimals?.bind strToNat? with
              | none => .fail "not instantiated"
              | some decimals =>
                .get "token_info:total_supply" (fun supply? =>
                  match supply? with
                  | none => .fail "not instantiated"
                  | some supply =>
                    .ret (.obj [("name", .str name), ("symbol", .str symbol),
                                ("decimals", .num decimals), ("total_supply", .str supply)])))))
  | .balance a =>
    .get (balanceKey a) (fun bal? => .ret (.obj [("balance", .str (bal?.getD "0"))]))

/-- A query request as passed by the harness: a `wasm.smart` envelope
naming the queried contract and carrying its (decoded) message. -/
inductive QueryRequest where
  | wasmSmart (contract_addr : String) (message : Cw20QueryMsg)

/-- The `vm_instantiate` entry point: dispatches the instantiate export of
the cw20 module and returns the committed state and events.  The `code`
argument is the bytecode the harness passes alongside the registry; its
behaviour is the modelled cw20 module. -/
def vm_instantiate (sender addr : String) (funds : List Coin) (st : WorldState)
    (code : List Nat) (m : Cw20InstantiateMsg) : Except VmError (WorldState × List Event) :=
  let _ := code
  (dispatch false (cw20_instantiate ⟨sender, funds⟩ m) addr st).map (fun p => (p.2, p.1))

/-- The `vm_execute` entry point. -/
def vm_execute (sender addr : String) (funds : List Coin) (st : WorldState)
    (code : List Nat) (m : Cw20ExecuteMsg) : Except VmError (WorldState × List Event) :=
  let _ := code
  (dispatch false (cw20_execute ⟨sender, funds⟩ m) addr st).map (fun p => (p.2, p.1))

/-- The `vm_query` entry point: resolves the `wasm.smart` envelope to the
target contract, dispatches its query export read-only, and returns only
the response bytes (the state is discarded; base64 framing at the JS
boundary is transport encoding, not modelled). -/
def vm_query (sender addr : String) (funds : List Coin) (st : WorldState)
    (code : List Nat) (req : QueryRequest) : Except VmError Json :=
  let _ := (sender, addr, funds, code)
  match req with
  | .wasmSmart contract_addr message =>
    (dispatch true (cw20_query message) contract_addr st).map (fun p => p.1)

/-! ## The harness scenario (`run` in `src/index.js`)

Code id `0x1337`, sender `0xC0DEC0DE` and address `0xCAFEBABE` appear below
in their JSON-object-key (decimal string) form: `"4919"`, `"3235954910"`
and `"3405691582"`. -/

/-- Decimal form of code id `0x1337`. -/
def codeIdKey : String := "4919"

/-- Decimal form of sender `0xC0DEC0DE` (`String(sender)` in the harness). -/
def senderKey : String := "3235954910"

/-- Decimal form of address `0xCAFEBABE`. -/
def addressKey : String := "3405691582"

/-- Stand-in for the fetched `cw20_base.wasm` bytes (the `\0asm` magic);
the registry only stores and looks the bytes up. -/
def cw20_code : List Nat := [0, 97, 115, 109]

/-- The initial world state built by `run`: code `0x1337` uploaded, address
`0xCAFEBABE` registered with it, empty storage, depth 0 and a single gas
checkpoint of `10000000000000`. -/
def initialState : WorldState :=
  { storage := []
  , codes := [(codeIdKey, cw20_code)]
  , contracts := [(addressKey, { code_id := codeIdKey, admin := none, label := "" })]
  , next_account_id := 3405691583
  , transaction_depth := 0
  , gas := ⟨10000000000000, []⟩ }

/-- The instantiate message of scenario 1: name "Picasso", symbol "PICA",
decimals 12, no initial balances, the sender as minter. -/
def picassoMsg : Cw20InstantiateMsg :=
  { name := "Picasso", symbol := "PICA", decimals := 12
  , initial_balances := []
  , mint := some { minter := senderKey, cap := none } }

/-- Scenario 1: instantiate, then query `token_info` on the resulting
state through the `wasm.smart` envelope. -/
def scenario1 : Except VmError Json :=
  match vm_instantiate senderKey addressKey [] initialState cw20_code picassoMsg with
  | .error e => .error e
  | .ok (st1, _) =>
    vm_query senderKey addressKey [] st1 cw20_code (.wasmSmart addressKey .token_info)

/-- Scenario 2, step 1: instantiate, then mint 5555 to "10001" from the
registered minter. -/
def scenario2Mint : Except VmError (WorldState × List Event) :=
  match vm_instantiate senderKey addressKey [] initialState cw20_code picassoMsg with
  | .error e => .error e
  | .ok (st1, _) => vm_execute senderKey addressKey [] st1 cw20_code (.mint "10001" "5555")

/-- Scenario 2, step 2: the balance of "10001" after the mint. -/
def scenario2Balance : Except VmError Json :=
  match scenario2Mint with
  | .error e => .error e
  | .ok (st2, _) =>
    vm_query senderKey addressKey [] st2 cw20_code (.wasmSmart addressKey (.balance "10001"))

/-- Scenario 2, step 3: the same mint attempted by a non-minter sender. -/
def scenario2BadMint : Except VmError (WorldState × List Event) :=
  match scenario2Mint with
  | .error e => .error e
  | .ok (st2, _) => vm_execute "10001" addressKey [] st2 cw20_code (.mint "10001" "5555")

/-- Scenario 2, step 4: the balance of "10001" on the state the caller
holds after the failed mint (the state of `dispatchFinal`). -/
def scenario2BalanceAfterBadMint : Except VmError Json :=
  match scenario2Mint with
  | .error e => .error e
  | .ok (st2, _) =>
    let after :=
      (dispatchFinal false (cw20_execute ⟨"10001", []⟩ (.mint "10001" "5555")) addressKey st2).2
    vm_query senderKey addressKey [] after cw20_code (.wasmSmart addressKey (.balance "10001"))

/-! ## Gas meter lemmas -/

theorem charge_ok_spec {n : Nat} {g g' : GasState}
    (h : GasState.charge n g = .ok g') :
    g'.active ≤ g.active ∧ g'.parents = g.parents ∧ 0 ≤ g'.active := by
  unfold GasState.charge at h
  split at h
  · rename_i hle
    cases h
    refine ⟨?_, rfl, ?_⟩
    · show g.active - (n : Int) ≤ g.active
      omega
    · show (0 : Int) ≤ g.active - (n : Int)
      omega
  · cases h

theorem charge_error_eq {n : Nat} {g : GasState} {e : VmError}
    (h : GasState.charge n g = .error e) : e = .OutOfGas := by
  unfold GasState.charge at h
  split at h
  · cases h
  · cases h; rfl

theorem commit_active (g : GasState) : g.commit.active = g.active := by
  unfold GasState.commit
  split <;> rfl

/-! ## Host bridge (interpreter) lemmas -/

theorem iteratorNext_data {cs : ContractStorage} {h : Nat} {res : Option KV}
    {cs' : ContractStorage} (hn : iteratorNext cs h = some (res, cs')) :
    cs'.data = cs.data := by
  unfold iteratorNext at hn
  split at hn
  · cases hn
  · cases hn; rfl
  · cases hn; rfl

/-- A successful interpreter run only charges gas: the enclosing checkpoints
are untouched, the active budget never grows, and it stays non-negative. -/
theorem interp_ok_gas {α : Type} {ro : Bool} (prog : Guest α) :
    ∀ {cs g a cs' g'}, interp ro prog cs g = .ok (a, cs', g') →
      g'.parents = g.parents ∧ g'.active ≤ g.active ∧ (0 ≤ g.active → 0 ≤ g'.active) := by
  induction prog with
  | ret x =>
    intro cs g a cs' g' h
    simp only [interp] at h
    obtain ⟨-, -, rfl⟩ := h
    exact ⟨rfl, le_refl _, fun hg => hg⟩
  | fail m =>
    intro cs g a cs' g' h
    simp only [interp] at h
    cases h
  | get k f ih =>
    intro cs g a cs' g' h
    simp only [interp] at h
    split at h
    · cases h
    · rename_i g₁ hc
      obtain ⟨hp, hle, hnn⟩ := ih _ h
      obtain ⟨hle', hp', hnn'⟩ := charge_ok_spec hc
      exact ⟨hp.trans hp', hle.trans hle', fun _ => hnn hnn'⟩
  | put k v cont ih =>
    intro cs g a cs' g' h
    simp only [interp] at h
    split at h
    · cases h
    · split at h
      · cases h
      · rename_i g₁ hc
        obtain ⟨hp, hle, hnn⟩ := ih h
        obtain ⟨hle', hp', hnn'⟩ := charge_ok_spec hc
        exact ⟨hp.trans hp', hle.trans hle', fun _ => hnn hnn'⟩
  | remove k cont ih =>
    intro cs g a cs' g' h
    simp only [interp] at h
    split at h
    · cases h
    · split at h
      · cases h
      · rename_i g₁ hc
        obtain ⟨hp, hle, hnn⟩ := ih h
        obtain ⟨hle', hp', hnn'⟩ := charge_ok_spec hc
        exact ⟨hp.trans hp', hle.trans hle', fun _ => hnn hnn'⟩
  | scan a b ord f ih =>
    intro cs g a' cs' g' h
    simp only [interp, openIterator] at h
    split at h
    · cases h
    · rename_i g₁ hc
      obtain ⟨hp, hle, hnn⟩ := ih _ h
      obtain ⟨hle', hp', hnn'⟩ := charge_ok_spec hc
      exact ⟨hp.trans hp', hle.trans hle', fun _ => hnn hnn'⟩
  | next hdl f ih =>
    intro cs g a cs' g' h
    simp only [interp] at h
    split at h
    · cases h
    · rename_i g₁ hc
      split at h
      · cases h
      · rename_i res cs₂ hn
        obtain ⟨hp, hle, hnn⟩ := ih _ h
        obtain ⟨hle', hp', hnn'⟩ := charge_ok_spec hc
        exact ⟨hp.trans hp', hle.trans hle', fun _ => hnn hnn'⟩

/-- In read-only (query) mode a successful interpreter run leaves the
store's data untouched: every mutation would have failed `WriteInQuery`. -/
theorem interp_query_data {α : Type} (prog : Guest α) :
    ∀ {cs g a cs' g'}, interp true prog cs g = .ok (a, cs', g') →
      cs'.data = cs.data := by
  induction prog with
  | ret x =>
    intro cs g a cs' g' h
    simp only [interp] at h
    obtain ⟨-, rfl, -⟩ := h
    rfl
  | fail m =>
    intro cs g a cs' g' h
    simp only [interp] at h
    cases h
  | get k f ih =>
    intro cs g a cs' g' h
    simp only [interp] at h
    split at h
    · cases h
    · exact ih _ h
  | put k v cont ih =>
    intro cs g a cs' g' h
    simp [interp] at h
  | remove k cont ih =>
    intro cs g a cs' g' h
    simp [interp] at h
  | scan a b ord f ih =>
    intro cs g a' cs' g' h
    simp only [interp, openIterator] at h
    split at h
    · cases h
    · exact (ih _ h).trans rfl
  | next hdl f ih =>
    intro cs g a cs' g' h
    simp only [interp] at h
    split at h
    · cases h
    · split at h
      · cases h
      · rename_i res cs₂ hn
        exact (ih _ h).trans (iteratorNext_data hn)

/-- The interpreter only ever fails with a gas, write-in-query, iterator or
contract-reported error. -/
theorem interp_error_kinds {α : Type} {ro : Bool} (prog : Guest α) :
    ∀ {cs g e}, interp ro prog cs g = .error e →
      e = .OutOfGas ∨ e = .WriteInQuery ∨ e = .InvalidIterator ∨
        ∃ m, e = .ContractError m := by
  induction prog with
  | ret x =>
    intro cs g e h
    simp only [interp] at h
    cases h
  | fail m =>
    intro cs g e h
    simp only [interp] at h
    cases h
    exact .inr (.inr (.inr ⟨m, rfl⟩))
  | get k f ih =>
    intro cs g e h
    simp only [interp] at h
    split at h
    · cases h; rename_i hc; exact .inl (charge_error_eq hc)
    · exact ih _ h
  | put k v cont ih =>
    intro cs g e h
    simp only [interp] at h
    split at h
    · cases h; exact .inr (.inl rfl)
    · split at h
      · cases h; rename_i hc; exact .inl (charge_error_eq hc)
      · exact ih h
  | remove k cont ih =>
    intro cs g e h
    simp only [interp] at h
    split at h
    · cases h; exact .inr (.inl rfl)
    · split at h
      · cases h; rename_i hc; exact .inl (charge_error_eq hc)
      · exact ih h
  | scan a b ord f ih =>
    intro cs g e h
    simp only [interp, openIterator] at h
    split at h
    · cases h; rename_i hc; exact .inl (charge_error_eq hc)
    · exact ih _ h
  | next hdl f ih =>
    intro cs g e h
    simp only [interp] at h
    split at h
    · cases h; rename_i hc; exact .inl (charge_error_eq hc)
    · split at h
      · cases h; exact .inr (.inr (.inl rfl))
      · rename_i res cs₂ hn
        exact ih _ h

/-! ## Storage map and dispatcher lemmas -/

theorem alookup_setStorage {s : List (String × ContractStorage)} {a key : String}
    {cs : ContractStorage} :
    alookup (setStorage s a cs) key = if key = a then some cs else alookup s key := by
  induction s with
  | nil =>
    by_cases h : a = key
    · subst h
      simp [setStorage, alookup]
    · simp [setStorage, alookup, h, Ne.symm h]
  | cons p rest ih =>
    obtain ⟨a', cs'⟩ := p
    by_cases h1 : a' = a
    · subst h1
      by_cases h2 : a' = key
      · subst h2
        simp [setStorage, alookup]
      · simp [setStorage, alookup, h2, Ne.symm h2]
    · by_cases h2 : a' = key
      · subst h2
        simp [setStorage, alookup, h1, Ne.symm h1]
      · simp [setStorage, alookup, h1, h2, ih]

theorem mem_setStorage {s : List (String × ContractStorage)} {a : String}
    {cs : ContractStorage} {p : String × ContractStorage}
    (h : p ∈ setStorage s a cs) : p = (a, cs) ∨ p ∈ s := by
  induction s with
  | nil =>
    simp [setStorage] at h
    exact .inl h
  | cons q rest ih =>
    obtain ⟨a', cs'⟩ := q
    simp only [setStorage] at h
    split at h
    · rcases List.mem_cons.mp h with h | h
      · exact .inl h
      · exact .inr (List.mem_cons.mpr (.inr h))
    · rcases List.mem_cons.mp h with h | h
      · exact .inr (List.mem_cons.mpr (.inl h))
      · rcases ih h with h | h
        · exact .inl h
        · exact .inr (List.mem_cons.mpr (.inr h))

/-- Anatomy of a successful dispatch: the validation steps all passed, the
guest ran against the checkpointed gas and the target's store, and the
returned state is the committed write-back (iterators closed, registries
and account counter untouched, depth restored, gas checkpoint merged). -/
theorem dispatch_ok_spec {α : Type} {ro : Bool} {prog : Guest α} {addr : String}
    {st : WorldState} {r : α} {st' : WorldState}
    (h : dispatch ro prog addr st = .ok (r, st')) :
    ∃ info code cs' g',
      alookup st.contracts addr = some info
      ∧ alookup st.codes info.code_id = some code
      ∧ st.transaction_depth < transactionDepthLimit
      ∧ 0 < st.gas.remaining
      ∧ interp ro prog ((alookup st.storage addr).getD emptyStorage) st.gas.checkpoint
          = .ok (r, cs', g')
      ∧ st'.storage = setStorage st.storage addr { cs' with iterators := [] }
      ∧ st'.codes = st.codes
      ∧ st'.contracts = st.contracts
      ∧ st'.next_account_id = st.next_account_id
      ∧ st'.transaction_depth = st.transaction_depth
      ∧ st'.gas = g'.commit := by
  unfold dispatch at h
  split at h
  · cases h
  · rename_i info hinfo
    split at h
    · cases h
    · rename_i code hcode
      split at h
      · cases h
      · rename_i hdepth
        split at h
        · cases h
        · rename_i hgas
          split at h
          · cases h
          · rename_i a cs' g' hint
            cases h
            refine ⟨info, code, cs', g', hinfo, hcode, by omega, by omega,
              hint, rfl, rfl, rfl, rfl, ?_, rfl⟩
            show st.transaction_depth + 1 - 1 = st.transaction_depth
            omega

/-- Anatomy of a failed dispatch: the error is one raised by validation or
by the host bridge; the internal working state is discarded. -/
theorem dispatch_error_kinds {α : Type} {ro : Bool} {prog : Guest α} {addr : String}
    {st : WorldState} {e : VmError}
    (h : dispatch ro prog addr st = .error e) :
    e = .InputError ∨ e = .ResourceLimitExceeded ∨ e = .OutOfGas
      ∨ e = .WriteInQuery ∨ e = .InvalidIterator ∨ ∃ m, e = .ContractError m := by
  unfold dispatch at h
  split at h
  · cases h
    exact .inl rfl
  · split at h
    · cases h
      exact .inl rfl
    · split at h
      · cases h
        exact .inr (.inl rfl)
      · split at h
        · cases h
          exact .inr (.inr (.inl rfl))
        · split at h
          · rename_i hint
            cases h
            rcases interp_error_kinds _ hint with h | h | h | h
            · exact .inr (.inr (.inl h))
            · exact .inr (.inr (.inr (.inl h)))
            · exact .inr (.inr (.inr (.inr (.inl h))))
            · exact .inr (.inr (.inr (.inr (.inr h))))
          · cases h

/-! ## Invariants -/

/-- No checkpoint of the gas stack is negative. -/
def GasNonneg (g : GasState) : Prop := 0 ≤ g.active ∧ ∀ p ∈ g.parents, 0 ≤ p

instance (g : GasState) : Decidable (GasNonneg g) :=
  inferInstanceAs (Decidable (_ ∧ _))

/-- The spec's world-state invariants on gas and depth: gas is never
negative, and `transaction_depth` equals the checkpoint-stack depth minus
one (the stack holds `active` plus the `parents`). -/
def Invariant (st : WorldState) : Prop :=
  GasNonneg st.gas ∧ st.transaction_depth = st.gas.parents.length

instance (st : WorldState) : Decidable (Invariant st) :=
  inferInstanceAs (Decidable (_ ∧ _))

theorem commit_parents_cons {g : GasState} {p : Int} {rest : List Int}
    (h : g.parents = p :: rest) : g.commit = ⟨g.active, rest⟩ := by
  simp [GasState.commit, h]

/-! ## Named scenario states (used by the concrete witnesses) -/

/-- The guest run of the scenario instantiate. -/
def instProg : Guest (List Event) := cw20_instantiate ⟨senderKey, []⟩ picassoMsg

/-- The events of the scenario instantiate. -/
def state1Events : List Event := [⟨"wasm", [("action", "instantiate"), ("sender", senderKey)]⟩]

/-- The committed state after the scenario instantiate. -/
def state1 : WorldState :=
  match vm_instantiate senderKey addressKey [] initialState cw20_code picassoMsg with
  | .ok (st, _) => st
  | .error _ => initialState

/-- The committed state after the scenario mint. -/
def state2 : WorldState :=
  match scenario2Mint with
  | .ok (st, _) => st
  | .error _ => initialState

/-- The guest run of the token-info query. -/
def queryProg : Guest Json := cw20_query .token_info

/-- The token-info response of scenario 1. -/
def tokenInfoResponse : Json :=
  .obj [("name", .str "Picasso"), ("symbol", .str "PICA"),
        ("decimals", .num 12), ("total_supply", .str "0")]

/-- The internal state at the end of the token-info query on `state1`. -/
def queryFinalState : WorldState :=
  match dispatch true queryProg addressKey state1 with
  | .ok (_, st) => st
  | .error _ => state1

/-- The unauthorized mint attempted by sender "10001". -/
def badMintProg : Guest (List Event) := cw20_execute ⟨"10001", []⟩ (.mint "10001" "5555")

/-- A state whose transaction depth is already at the configured maximum. -/
def deepState : WorldState :=
  { initialState with
    transaction_depth := transactionDepthLimit
  , gas := ⟨10000, List.replicate transactionDepthLimit 10000⟩ }

/-- A store with an exhausted iterator at handle 0 and no handle 5. -/
def iterDemoStore : ContractStorage := ⟨[("a", "1")], [(0, [])]⟩

/-- A small gas state for the iterator witness. -/
def gasDemo : GasState := ⟨100, []⟩

/-! ## Claim theorems -/

/-- Claim C2: a read-only (query) dispatch never mutates the supplied
state: on success the internal final state carries the same storage data
for every address, the same registries and the same depth as the input
(only gas, which the query entry point discards along with the rest, is
consumed); and all three entry points are pure functions of their
arguments, so identical inputs give identical outputs and no hidden state
flows between calls. -/
theorem claim_c2 :
    (∀ {α : Type} (prog : Guest α) (addr : String) (st : WorldState) (r : α)
        (st' : WorldState), dispatch true prog addr st = .ok (r, st') →
          (∀ a, dataOf st' a = dataOf st a)
          ∧ st'.codes = st.codes
          ∧ st'.contracts = st.contracts
          ∧ st'.transaction_depth = st.transaction_depth)
    ∧ (∀ (sender addr : String) (funds : List Coin) (st : WorldState) (code : List Nat)
        (req : QueryRequest),
        vm_query sender addr funds st code req = vm_query sender addr funds st code req)
    ∧ (∀ (sender addr : String) (funds : List Coin) (st : WorldState) (code : List Nat)
        (m : Cw20ExecuteMsg),
        vm_execute sender addr funds st code m = vm_execute sender addr funds st code m)
    ∧ (∀ (sender addr : String) (funds : List Coin) (st : WorldState) (code : List Nat)
        (m : Cw20InstantiateMsg),
        vm_instantiate sender addr funds st code m = vm_instantiate sender addr funds st code m) := by
  refine ⟨?_, fun _ _ _ _ _ _ => rfl, fun _ _ _ _ _ _ => rfl, fun _ _ _ _ _ _ => rfl⟩
  intro α prog addr st r st' h
  obtain ⟨info, code, cs', g', -, -, -, -, hint, hs, hc, hco, -, hdep, -⟩ :=
    dispatch_ok_spec h
  have hdata := interp_query_data prog hint
  refine ⟨?_, hc, hco, hdep⟩
  intro a
  by_cases ha : a = addr
  · subst ha
    simp only [dataOf, hs, alookup_setStorage, if_pos rfl, Option.getD_some]
    exact hdata
  · simp only [dataOf, hs, alookup_setStorage, if_neg ha]

/-- Witness for C2 at the scenario query: the token-info query on the
instantiated state succeeds and leaves the contract's storage data
untouched. -/
theorem claim_c2_witness :
    dispatch true queryProg addressKey state1 = .ok (tokenInfoResponse, queryFinalState)
    ∧ dataOf queryFinalState addressKey = dataOf state1 addressKey :=
  ⟨rfl, (claim_c2.1 queryProg addressKey state1 tokenInfoResponse queryFinalState rfl).1 addressKey⟩

/-- Claim C3: a top-level call that fails with a recoverable error (any
error other than `StateInvariantViolation`) surfaces the error instead of
a state, and the caller's original `WorldState` — storage, codes,
contracts and gas — is exactly its pre-call value; moreover the dispatcher
in fact never raises `StateInvariantViolation`, so every failure is
recoverable. -/
theorem claim_c3 :
    (∀ {α : Type} (ro : Bool) (prog : Guest α) (addr : String) (st : WorldState)
        (e : VmError), (dispatchFinal ro prog addr st).1 = .error e →
        e ≠ .StateInvariantViolation →
          dispatch ro prog addr st = .error e
          ∧ (dispatchFinal ro prog addr st).2 = st
          ∧ (dispatchFinal ro prog addr st).2.storage = st.storage
          ∧ (dispatchFinal ro prog addr st).2.codes = st.codes
          ∧ (dispatchFinal ro prog addr st).2.contracts = st.contracts
          ∧ (dispatchFinal ro prog addr st).2.gas = st.gas)
    ∧ (∀ {α : Type} (ro : Bool) (prog : Guest α) (addr : String) (st : WorldState)
        (e : VmError), dispatch ro prog addr st = .error e →
          e ≠ .StateInvariantViolation) := by
  constructor
  · intro α ro prog addr st e h _
    unfold dispatchFinal at *
    split at h
    · rename_i e' hd
      simp only at h
      cases h
      simp [hd]
    · rename_i p hd
      simp at h
  · intro α ro prog addr st e h
    rcases dispatch_error_kinds h with rfl | rfl | rfl | rfl | rfl | ⟨m, rfl⟩ <;>
      exact fun hh => VmError.noConfusion hh

/-- Witness for C3 at the unauthorized mint of scenario 2: the call fails
with `ContractError` and the caller still holds `state2` unchanged. -/
theorem claim_c3_witness :
    (dispatchFinal false badMintProg addressKey state2).1 = .error (.ContractError "Unauthorized")
    ∧ (dispatchFinal false badMintProg addressKey state2).2 = state2 :=
  ⟨rfl, (claim_c3.1 false badMintProg addressKey state2 (.ContractError "Unauthorized")
    rfl (by decide)).2.1⟩

/-- Claim C4: `charge(n)` deducts `n` from the top checkpoint when `n` is
at most the remaining budget and fails `OutOfGas` (producing no state)
when `n` exceeds it; and every completed call has post-call remaining gas
at most its pre-call remaining gas. -/
theorem claim_c4 :
    (∀ (g : GasState) (n : Nat),
        ((n : Int) ≤ g.remaining → GasState.charge n g = .ok ⟨g.active - n, g.parents⟩)
        ∧ (g.remaining < (n : Int) → GasState.charge n g = .error .OutOfGas))
    ∧ (∀ {α : Type} (ro : Bool) (prog : Guest α) (addr : String) (st : WorldState)
        (r : α) (st' : WorldState), dispatch ro prog addr st = .ok (r, st') →
          st'.gas.remaining ≤ st.gas.remaining) := by
  constructor
  · intro g n
    constructor
    · intro h
      have h' : (n : Int) ≤ g.active := h
      unfold GasState.charge
      rw [if_pos h']
    · intro h
      have h' : g.active < (n : Int) := h
      unfold GasState.charge
      rw [if_neg (by omega)]
  · intro α ro prog addr st r st' h
    obtain ⟨info, code, cs', g', -, -, -, -, hint, -, -, -, -, -, hgas⟩ :=
      dispatch_ok_spec h
    obtain ⟨-, hle, -⟩ := interp_ok_gas _ hint
    show st'.gas.active ≤ st.gas.active
    rw [hgas, commit_active]
    exact hle

/-- Witness for C4: a concrete in-budget charge, and the scenario
instantiate consuming gas monotonically. -/
theorem claim_c4_witness :
    GasState.charge 3 ⟨5, []⟩ = .ok ⟨2, []⟩
    ∧ state1.gas.remaining ≤ initialState.gas.remaining :=
  ⟨(claim_c4.1 ⟨5, []⟩ 3).1 (by decide),
   claim_c4.2 false instProg addressKey initialState state1Events state1 rfl⟩

/-- Claim C6: on a registered contract whose code is present, a call whose
input transaction depth is already at the configured maximum fails with
`ResourceLimitExceeded`, and the outcome does not depend on the guest
program at all — validation rejects the call before the guest module is
invoked. -/
theorem claim_c6 :
    ∀ {α : Type} (ro : Bool) (prog : Guest α) (addr : String) (st : WorldState)
      (info : ContractInfo),
      alookup st.contracts addr = some info →
      (alookup st.codes info.code_id).isSome = true →
      transactionDepthLimit ≤ st.transaction_depth →
      dispatch ro prog addr st = .error .ResourceLimitExceeded
        ∧ ∀ (prog' : Guest α), dispatch ro prog addr st = dispatch ro prog' addr st := by
  intro α ro prog addr st info hinfo hcode hdepth
  obtain ⟨c, hc⟩ := Option.isSome_iff_exists.mp hcode
  have hmain : ∀ (p : Guest α), dispatch ro p addr st = .error .ResourceLimitExceeded := by
    intro p
    simp only [dispatch, hinfo, hc]
    rw [if_pos hdepth]
  exact ⟨hmain prog, fun prog' => (hmain prog).trans (hmain prog').symm⟩

/-- Witness for C6: at depth `transactionDepthLimit` the scenario contract
rejects an execute with `ResourceLimitExceeded`. -/
theorem claim_c6_witness :
    alookup deepState.contracts addressKey = some ⟨codeIdKey, none, ""⟩
    ∧ (alookup deepState.codes codeIdKey).isSome = true
    ∧ transactionDepthLimit ≤ deepState.transaction_depth
    ∧ dispatch false instProg addressKey deepState = .error .ResourceLimitExceeded :=
  ⟨rfl, rfl, le_refl _,
   (claim_c6 false instProg addressKey deepState ⟨codeIdKey, none, ""⟩ rfl rfl (le_refl _)).1⟩

theorem scanDescAux_eq (a b : String) :
    ∀ (l acc : List KV), scanDescAux a b l acc = (scanAsc l a b).reverse ++ acc := by
  intro l
  induction l with
  | nil =>
    intro acc
    simp [scanDescAux, scanAsc]
  | cons kv rest ih =>
    intro acc
    simp only [scanDescAux]
    by_cases h : inRange a b kv.1
    · rw [if_pos h, ih]
      simp [scanAsc, List.filter_cons, h]
    · rw [if_neg h, ih]
      simp [scanAsc, List.filter_cons, h]

/-- Claim C7: a descending scan of `[a, b)` yields exactly the ascending
scan in reversed order; `next` on an exhausted iterator returns the
exhausted marker and leaves the arena unchanged (so it keeps returning the
marker forever, never an error), and `next` on an unknown handle fails
`InvalidIterator`. -/
theorem claim_c7 :
    (∀ (data : List KV) (a b : String),
        scanRange data a b .descending = (scanRange data a b .ascending).reverse)
    ∧ (∀ (cs : ContractStorage) (h : Nat),
        alookupN cs.iterators h = some [] → iteratorNext cs h = some (none, cs))
    ∧ (∀ {α : Type} (ro : Bool) (f : Option KV → Guest α) (cs : ContractStorage)
        (g : GasState) (h : Nat),
        alookupN cs.iterators h = some [] → (gasNextCost : Int) ≤ g.active →
        interp ro (.next h f) cs g = interp ro (f none) cs ⟨g.active - gasNextCost, g.parents⟩)
    ∧ (∀ {α : Type} (ro : Bool) (f : Option KV → Guest α) (cs : ContractStorage)
        (g : GasState) (h : Nat),
        alookupN cs.iterators h = none → (gasNextCost : Int) ≤ g.active →
        interp ro (.next h f) cs g = .error .InvalidIterator) := by
  refine ⟨?_, ?_, ?_, ?_⟩
  · intro data a b
    simp [scanRange, scanDesc, scanDescAux_eq]
  · intro cs h hh
    simp only [iteratorNext, hh]
  · intro α ro f cs g h hh hg
    simp only [interp, GasState.charge]
    rw [if_pos hg]
    simp only [iteratorNext, hh]
  · intro α ro f cs g h hh hg
    simp only [interp, GasState.charge]
    rw [if_pos hg]
    simp only [iteratorNext, hh]

/-- Witness for C7: handle 0 is exhausted and keeps reporting the marker;
handle 5 is unknown and fails `InvalidIterator`. -/
theorem claim_c7_witness :
    iteratorNext iterDemoStore 0 = some (none, iterDemoStore)
    ∧ interp false (.next 5 (fun r => .ret r)) iterDemoStore gasDemo = .error .InvalidIterator :=
  ⟨claim_c7.2.1 iterDemoStore 0 rfl,
   claim_c7.2.2.2 false (fun r => .ret r) iterDemoStore gasDemo 5 rfl (by decide)⟩

/-- Claim C9: the initial state satisfies the gas/depth invariants (gas
never negative; `transaction_depth` = checkpoint-stack depth − 1), and
every operation — charging, opening a scope, committing a scope, and any
successful dispatch — preserves them. -/
theorem claim_c9 :
    Invariant initialState
    ∧ (∀ (g g' : GasState) (n : Nat),
        GasState.charge n g = .ok g' → GasNonneg g → GasNonneg g')
    ∧ (∀ (st : WorldState), Invariant st → Invariant (beginTx st))
    ∧ (∀ (st : WorldState), Invariant st → Invariant (commitTx st))
    ∧ (∀ {α : Type} (ro : Bool) (prog : Guest α) (addr : String) (st : WorldState)
        (r : α) (st' : WorldState),
        Invariant st → dispatch ro prog addr st = .ok (r, st') → Invariant st') := by
  refine ⟨by decide, ?_, ?_, ?_, ?_⟩
  · intro g g' n hc ⟨ha, hp⟩
    obtain ⟨-, hpar, hnn⟩ := charge_ok_spec hc
    exact ⟨hnn, hpar ▸ hp⟩
  · intro st ⟨⟨ha, hp⟩, hd⟩
    refine ⟨⟨ha, ?_⟩, ?_⟩
    · intro p hmem
      rcases List.mem_cons.mp hmem with rfl | hmem
      · exact ha
      · exact hp _ hmem
    · show st.transaction_depth + 1 = (st.gas.active :: st.gas.parents).length
      simp [hd]
  · intro st ⟨⟨ha, hp⟩, hd⟩
    unfold commitTx GasState.commit
    cases hpar : st.gas.parents with
    | nil =>
      refine ⟨⟨ha, ?_⟩, ?_⟩
      · rw [hpar]
        intro p hmem
        cases hmem
      · rw [hpar]
        simp [hd, hpar]
    | cons p rest =>
      refine ⟨⟨ha, ?_⟩, ?_⟩
      · intro q hmem
        exact hp _ (hpar ▸ List.mem_cons.mpr (.inr hmem))
      · show st.transaction_depth - 1 = rest.length
        rw [hd, hpar]
        simp
  · intro α ro prog addr st r st' ⟨⟨ha, hp⟩, hd⟩ h
    obtain ⟨info, code, cs', g', -, -, -, -, hint, -, -, -, -, hdep, hgas⟩ :=
      dispatch_ok_spec h
    obtain ⟨hpar, -, hnn⟩ := interp_ok_gas _ hint
    have hpar' : g'.parents = st.gas.active :: st.gas.parents := hpar
    have hcommit := commit_parents_cons hpar'
    constructor
    · constructor
      · show 0 ≤ st'.gas.active
        rw [hgas, commit_active]
        exact hnn ha
      · intro p hmem
        rw [hgas, hcommit] at hmem
        exact hp _ hmem
    · show st'.transaction_depth = st'.gas.parents.length
      rw [hgas, hcommit, hdep, hd]

/-- Witness for C9: the initial state and the instantiated state both
satisfy the invariants. -/
theorem claim_c9_witness :
    Invariant initialState ∧ Invariant state1 :=
  ⟨by decide,
   claim_c9.2.2.2.2 false instProg addressKey initialState state1Events state1
     (by decide) rfl⟩

/-- Claim C1: with code `0x1337` uploaded and address `0xCAFEBABE`
registered to it, instantiating with name "Picasso", symbol "PICA",
decimals 12 and empty initial balances and then querying `token_info` on
the resulting state returns name "Picasso", symbol "PICA", decimals 12 and
total supply "0". -/
theorem claim_c1 :
    scenario1 = .ok (.obj [("name", .str "Picasso"), ("symbol", .str "PICA"),
      ("decimals", .num 12), ("total_supply", .str "0")]) := rfl

/-- Claim C5: minting 5555 to "10001" from the registered minter succeeds
and the balance query on the resulting state returns "5555"; the same mint
from a non-minter fails with `ContractError`, and the balance — read on
the state the caller still holds after the failed call — is unchanged. -/
theorem claim_c5 :
    scenario2Balance = .ok (.obj [("balance", .str "5555")])
    ∧ scenario2BadMint = .error (.ContractError "Unauthorized")
    ∧ scenario2BalanceAfterBadMint = .ok (.obj [("balance", .str "5555")]) :=
  ⟨rfl, rfl, rfl⟩

/-! ## The JSON boundary

`src/index.js` feeds the `state` returned by each entry point to
`Object.fromEntries` (`normalize`), so the returned representation of
`codes`, `contracts` and `storage` is iterable entry lists (JSON arrays of
`[key, value]` pairs below — this also stands for a JS `Map` of entries,
which `Object.fromEntries` consumes the same way), while the accepted
stateJSON input is keyed objects, as in the harness's initial state. -/

/-- `mapOption f l` applies `f` to every element, failing if any
application fails (the effect of a JS exception inside a loop). -/
def mapOption {β γ : Type} (f : β → Option γ) : List β → Option (List γ)
  | [] => some []
  | x :: xs =>
    match f x, mapOption f xs with
    | some y, some ys => some (y :: ys)
    | _, _ => none

/-- A storage entry as a JSON `[key, value]` pair. -/
def kvToJson (kv : KV) : Json := .arr [.str kv.1, .str kv.2]

/-- An iterator-arena entry as a JSON `[handle, cursor]` pair. -/
def iteratorToJson (it : Nat × List KV) : Json :=
  .arr [.num it.1, .arr (it.2.map kvToJson)]

/-- Entries-form serialization of a contract store (as returned). -/
def contractStorageToJson (cs : ContractStorage) : Json :=
  .obj [("data", .arr (cs.data.map kvToJson)),
        ("iterators", .arr (cs.iterators.map iteratorToJson))]

/-- Keyed-object serialization of a contract store (as accepted, i.e. the
result of `normalize`). -/
def contractStorageToInputJson (cs : ContractStorage) : Json :=
  .obj [("data", .obj (cs.data.map (fun kv => (kv.1, Json.str kv.2)))),
        ("iterators", .obj (cs.iterators.map
          (fun it => (Nat.repr it.1, Json.arr (it.2.map kvToJson)))))]

/-- Code bytes as a JSON array of numbers. -/
def bytesToJson (bs : List Nat) : Json := .arr (bs.map (fun b : Nat => Json.num b))

/-- Contract metadata as a JSON object. -/
def contractInfoToJson (ci : ContractInfo) : Json :=
  .obj [("code_id", .str ci.code_id),
        ("admin", match ci.admin with | none => .null | some a => .str a),
        ("label", .str ci.label)]

/-- The gas checkpoint stack as `{checkpoints: [...]}`, top first. -/
def gasToJson (g : GasState) : Json :=
  .obj [("checkpoints", .arr ((g.active :: g.parents).map (fun c => Json.num c)))]

/-- A keyed collection in entries form. -/
def entriesOut {β : Type} (f : β → Json) (l : List (String × β)) : Json :=
  .arr (l.map (fun p => Json.arr [.str p.1, f p.2]))

/-- A keyed collection as a keyed object. -/
def entriesIn {β : Type} (f : β → Json) (l : List (String × β)) : Json :=
  .obj (l.map (fun p => (p.1, f p.2)))

/-- Modelled from the spec and the harness: the state as returned by the
entry points, with `storage`, `codes` and `contracts` in entries form
(that is the shape `normalize` in `src/index.js` converts with
`Object.fromEntries`; a keyed object would make those calls throw). -/
def stateToOutputJson (st : WorldState) : Json :=
  .obj [("storage", entriesOut contractStorageToJson st.storage),
        ("codes", entriesOut bytesToJson st.codes),
        ("contracts", entriesOut contractInfoToJson st.contracts),
        ("next_account_id", .num st.next_account_id),
        ("transaction_depth", .num st.transaction_depth),
        ("gas", gasToJson st.gas)]

/-- The documented keyed-object stateJSON shape the entry points accept
(the shape of the harness's initial state and of `normalize`'s result). -/
def stateToInputJson (st : WorldState) : Json :=
  .obj [("storage", entriesIn contractStorageToInputJson st.storage),
        ("codes", entriesIn bytesToJson st.codes),
        ("contracts", entriesIn contractInfoToJson st.contracts),
        ("next_account_id", .num st.next_account_id),
        ("transaction_depth", .num st.transaction_depth),
        ("gas", gasToJson st.gas)]

/-- The JS `ToPropertyKey` coercion applied by `Object.fromEntries`: a
string key is used as is, a numeric key becomes its decimal string. -/
def jsEntryKey : Json → Option String
  | .str s => some s
  | .num n => some (if n < 0 then "-" ++ Nat.repr n.natAbs else Nat.repr n.natAbs)
  | _ => none

/-- `Object.fromEntries`: each element must be a `[key, value]` entry.
Duplicate keys would overwrite in JS; the serializer of a keyed map never
produces them, so entries are kept in order. -/
def jsFromEntries (l : List Json) : Option (List (String × Json)) :=
  mapOption (fun e =>
    match e with
    | .arr [k, v] => (jsEntryKey k).map (fun s => (s, v))
    | _ => none) l

/-- The per-address storage value rebuilt by `normalize`:
`{data: Object.fromEntries(v.data), iterators: Object.fromEntries(v.iterators)}`. -/
def normalizeStorageValue (j : Json) : Option Json :=
  match j with
  | .obj fs =>
    match alookup fs "data", alookup fs "iterators" with
    | some (.arr d), some (.arr its) =>
      match jsFromEntries d, jsFromEntries its with
      | some d', some its' => some (.obj [("data", .obj d'), ("iterators", .obj its')])
      | _, _ => none
    | _, _ => none
  | _ => none

/-- One field of the state as rewritten by `normalize`: `codes`,
`contracts` and `storage` go through `Object.fromEntries` (with the
storage values rebuilt), every other field passes through unchanged. -/
def normalizeField (p : String × Json) : Option (String × Json) :=
  match p with
  | ("codes", .arr es) => (jsFromEntries es).map (fun l => ("codes", Json.obj l))
  | ("codes", _) => none
  | ("contracts", .arr es) => (jsFromEntries es).map (fun l => ("contracts", Json.obj l))
  | ("contracts", _) => none
  | ("storage", .arr es) =>
    match jsFromEntries es with
    | none => none
    | some l =>
      (mapOption (fun q => (normalizeStorageValue q.2).map (fun v => (q.1, v))) l).map
        (fun l' => ("storage", Json.obj l'))
  | ("storage", _) => none
  | (k, v) => some (k, v)

/-- `normalize` from `src/index.js`, as a function on the state's JSON
value (`none` models the exception JS would throw on a shape
`Object.fromEntries` cannot consume). -/
def normalizeJson (j : Json) : Option Json :=
  match j with
  | .obj fs => (mapOption normalizeField fs).map Json.obj
  | _ => none

/-- The shape asserted by the claim: `storage`, `codes` and `contracts`
present as keyed JSON objects. -/
def keyedObjectShape (j : Json) : Bool :=
  match j with
  | .obj fs =>
    (match alookup fs "storage" with | some (.obj _) => true | _ => false)
    && (match alookup fs "codes" with | some (.obj _) => true | _ => false)
    && (match alookup fs "contracts" with | some (.obj _) => true | _ => false)
  | _ => false

/-! ### The stateJSON input parser (modelled from the spec) -/

/-- A JSON string. -/
def parseStr : Json → Option String
  | .str s => some s
  | _ => none

/-- A non-negative JSON number. -/
def parseNat : Json → Option Nat
  | .num n => if n < 0 then none else some n.toNat
  | _ => none

/-- Code bytes. -/
def parseBytes : Json → Option (List Nat)
  | .arr xs => mapOption parseNat xs
  | _ => none

/-- Storage data from its keyed-object form. -/
def parseDataObj : Json → Option (List KV)
  | .obj fs => mapOption (fun p => (parseStr p.2).map (fun v => (p.1, v))) fs
  | _ => none

/-- An iterator cursor (a JSON array of `[key, value]` entries). -/
def parseCursor : Json → Option (List KV)
  | .arr xs =>
    mapOption (fun e =>
      match e with
      | .arr [.str k, .str v] => some (k, v)
      | _ => none) xs
  | _ => none

/-- The iterator arena from its keyed-object form. -/
def parseIterators : Json → Option (List (Nat × List KV))
  | .obj fs =>
    mapOption (fun p =>
      match strToNat? p.1, parseCursor p.2 with
      | some h, some c => some (h, c)
      | _, _ => none) fs
  | _ => none

/-- A contract store from its keyed-object form. -/
def parseContractStorage (j : Json) : Option ContractStorage :=
  match j with
  | .obj fs =>
    match alookup fs "data", alookup fs "iterators" with
    | some dj, some ij =>
      match parseDataObj dj, parseIterators ij with
      | some d, some its => some ⟨d, its⟩
      | _, _ => none
    | _, _ => none
  | _ => none

/-- An optional address (`null` or a string). -/
def parseOptAddr : Json → Option (Option String)
  | .null => some none
  | .str s => some (some s)
  | _ => none

/-- Contract metadata. -/
def parseContractInfo (j : Json) : Option ContractInfo :=
  match j with
  | .obj fs =>
    match alookup fs "code_id", alookup fs "admin", alookup fs "label" with
    | some (.str cid), some aj, some (.str lbl) =>
      (parseOptAddr aj).map (fun ad => ⟨cid, ad, lbl⟩)
    | _, _, _ => none
  | _ => none

/-- A keyed collection from its keyed-object form. -/
def parseKeyed {β : Type} (f : Json → Option β) : Json → Option (List (String × β))
  | .obj fs => mapOption (fun p => (f p.2).map (fun b => (p.1, b))) fs
  | _ => none

/-- One gas checkpoint. -/
def parseCheckpoint : Json → Option Int
  | .num n => some n
  | _ => none

/-- The gas stack from `{checkpoints: [...]}`; it must be non-empty. -/
def parseGas : Json → Option GasState
  | .obj fs =>
    match alookup fs "checkpoints" with
    | some (.arr cks) =>
      match mapOption parseCheckpoint cks with
      | some (c :: rest) => some ⟨c, rest⟩
      | _ => none
    | _ => none
  | _ => none

/-- Modelled from the spec: the stateJSON parser of the entry-point
boundary, accepting the documented keyed-object shape (a malformed state
is an `InputError` at the boundary). -/
def parseState (j : Json) : Option WorldState :=
  match j with
  | .obj fs =>
    match alookup fs "storage", alookup fs "codes", alookup fs "contracts",
        alookup fs "next_account_id", alookup fs "transaction_depth",
        alookup fs "gas" with
    | some sj, some cj, some ctj, some nj, some dj, some gj =>
      match parseKeyed parseContractStorage sj, parseKeyed parseBytes cj,
          parseKeyed parseContractInfo ctj, parseNat nj, parseNat dj,
          parseGas gj with
      | some storage, some codes, some contracts, some nid, some dep, some gas =>
        some ⟨storage, codes, contracts, nid, dep, gas⟩
      | _, _, _, _, _, _ => none
    | _, _, _, _, _, _ => none
  | _ => none

/-! ### Round-trip lemmas for the JSON boundary -/

theorem mapOption_map_eq_some {β γ δ : Type} {f : δ → Option γ} {g : β → δ} {h : β → γ}
    {l : List β} (hfg : ∀ x ∈ l, f (g x) = some (h x)) :
    mapOption f (l.map g) = some (l.map h) := by
  induction l with
  | nil => rfl
  | cons x xs ih =>
    have hx := hfg x (List.mem_cons_self x xs)
    have hxs := ih (fun y hy => hfg y (List.mem_cons.mpr (.inr hy)))
    simp only [List.map_cons, mapOption, hx, hxs]

theorem jsFromEntries_entries {β : Type} (f : β → Json) (l : List (String × β)) :
    jsFromEntries (l.map (fun p => Json.arr [.str p.1, f p.2]))
      = some (l.map (fun p => (p.1, f p.2))) := by
  unfold jsFromEntries
  exact mapOption_map_eq_some (fun x _ => rfl)

theorem normalizeStorageValue_out (cs : ContractStorage) (hit : cs.iterators = []) :
    normalizeStorageValue (contractStorageToJson cs)
      = some (contractStorageToInputJson cs) := by
  obtain ⟨d, its⟩ := cs
  obtain rfl : its = [] := hit
  show (match jsFromEntries (d.map kvToJson), jsFromEntries ([] : List Json) with
        | some d', some its' =>
          some (Json.obj [("data", .obj d'), ("iterators", .obj its')])
        | _, _ => none)
      = some (contractStorageToInputJson ⟨d, []⟩)
  have hd : jsFromEntries (d.map kvToJson)
      = some (d.map (fun kv => (kv.1, Json.str kv.2))) :=
    jsFromEntries_entries (fun v => Json.str v) d
  rw [hd]
  rfl

/-- `normalize` turns the entries-form state into exactly the keyed-object
input shape (for states whose iterator arenas are empty, as they are at
every call boundary). -/
theorem normalizeJson_output (st : WorldState)
    (hit : ∀ p ∈ st.storage, (p : String × ContractStorage).2.iterators = []) :
    normalizeJson (stateToOutputJson st) = some (stateToInputJson st) := by
  have hfg : ∀ p ∈ st.storage,
      (normalizeStorageValue (contractStorageToJson p.2)).map (fun v => (p.1, v))
      = some (p.1, contractStorageToInputJson p.2) := by
    intro p hp
    rw [normalizeStorageValue_out p.2 (hit p hp)]
    rfl
  have hm := mapOption_map_eq_some
    (f := fun q : String × Json => (normalizeStorageValue q.2).map (fun v => (q.1, v)))
    (g := fun p : String × ContractStorage => (p.1, contractStorageToJson p.2))
    (h := fun p : String × ContractStorage => (p.1, contractStorageToInputJson p.2))
    (l := st.storage) hfg
  have hstorage : normalizeField ("storage", entriesOut contractStorageToJson st.storage)
      = some ("storage", entriesIn contractStorageToInputJson st.storage) := by
    show (match jsFromEntries (st.storage.map
            (fun p => Json.arr [.str p.1, contractStorageToJson p.2])) with
          | none => none
          | some l =>
            (mapOption (fun q => (normalizeStorageValue q.2).map (fun v => (q.1, v))) l).map
              (fun l' => ("storage", Json.obj l')))
        = some ("storage", entriesIn contractStorageToInputJson st.storage)
    rw [jsFromEntries_entries]
    show (mapOption (fun q => (normalizeStorageValue q.2).map (fun v => (q.1, v)))
        (st.storage.map (fun p => (p.1, contractStorageToJson p.2)))).map
        (fun l' => ("storage", Json.obj l'))
        = some ("storage", entriesIn contractStorageToInputJson st.storage)
    rw [hm]
    rfl
  have hcodes : normalizeField ("codes", entriesOut bytesToJson st.codes)
      = some ("codes", entriesIn bytesToJson st.codes) := by
    show (jsFromEntries (st.codes.map (fun p => Json.arr [.str p.1, bytesToJson p.2]))).map
        (fun l => ("codes", Json.obj l)) = some ("codes", entriesIn bytesToJson st.codes)
    rw [jsFromEntries_entries]
    rfl
  have hcontracts : normalizeField ("contracts", entriesOut contractInfoToJson st.contracts)
      = some ("contracts", entriesIn contractInfoToJson st.contracts) := by
    show (jsFromEntries (st.contracts.map
          (fun p => Json.arr [.str p.1, contractInfoToJson p.2]))).map
        (fun l => ("contracts", Json.obj l))
        = some ("contracts", entriesIn contractInfoToJson st.contracts)
    rw [jsFromEntries_entries]
    rfl
  have hp1 : normalizeField ("next_account_id", Json.num (st.next_account_id : Int))
      = some ("next_account_id", Json.num (st.next_account_id : Int)) := rfl
  have hp2 : normalizeField ("transaction_depth", Json.num (st.transaction_depth : Int))
      = some ("transaction_depth", Json.num (st.transaction_depth : Int)) := rfl
  have hp3 : normalizeField ("gas", gasToJson st.gas) = some ("gas", gasToJson st.gas) := rfl
  show (mapOption normalizeField
      [("storage", entriesOut contractStorageToJson st.storage),
       ("codes", entriesOut bytesToJson st.codes),
       ("contracts", entriesOut contractInfoToJson st.contracts),
       ("next_account_id", .num st.next_account_id),
       ("transaction_depth", .num st.transaction_depth),
       ("gas", gasToJson st.gas)]).map Json.obj = some (stateToInputJson st)
  simp only [mapOption, hstorage, hcodes, hcontracts, hp1, hp2, hp3]
  rfl

theorem parseNat_num (n : Nat) : parseNat (Json.num n) = some n := by
  show (if ((n : Int) < 0) then none else some (Int.toNat (n : Int))) = some n
  rw [if_neg (not_lt.mpr (Int.natCast_nonneg n))]
  simp

theorem parseBytes_bytesToJson (bs : List Nat) : parseBytes (bytesToJson bs) = some bs := by
  show mapOption parseNat (bs.map (fun b : Nat => Json.num b)) = some bs
  rw [mapOption_map_eq_some (f := parseNat) (g := fun b : Nat => Json.num b)
    (h := fun b : Nat => b) (l := bs) (fun b _ => parseNat_num b)]
  simp

theorem parseDataObj_in (d : List KV) :
    parseDataObj (Json.obj (d.map (fun kv => (kv.1, Json.str kv.2)))) = some d := by
  show mapOption (fun p => (parseStr p.2).map (fun v => (p.1, v)))
      (d.map (fun kv => (kv.1, Json.str kv.2))) = some d
  rw [mapOption_map_eq_some
    (f := fun p : String × Json => (parseStr p.2).map (fun v => (p.1, v)))
    (g := fun kv : KV => (kv.1, Json.str kv.2))
    (h := fun kv : KV => (kv.1, kv.2)) (l := d) (fun kv _ => rfl)]
  simp

theorem parseContractStorage_in (cs : ContractStorage) (hit : cs.iterators = []) :
    parseContractStorage (contractStorageToInputJson cs) = some cs := by
  obtain ⟨d, its⟩ := cs
  obtain rfl : its = [] := hit
  show (match parseDataObj (Json.obj (d.map (fun kv => (kv.1, Json.str kv.2)))),
        parseIterators (Json.obj []) with
        | some d', some its' => some (⟨d', its'⟩ : ContractStorage)
        | _, _ => none) = some (⟨d, []⟩ : ContractStorage)
  rw [parseDataObj_in]
  rfl

theorem parseContractInfo_in (ci : ContractInfo) :
    parseContractInfo (contractInfoToJson ci) = some ci := by
  obtain ⟨cid, ad, lbl⟩ := ci
  cases ad <;> rfl

theorem parseGas_in (g : GasState) : parseGas (gasToJson g) = some g := by
  have hm := mapOption_map_eq_some (f := parseCheckpoint)
    (g := fun c : Int => Json.num c) (h := fun c : Int => c)
    (l := g.active :: g.parents) (fun c _ => rfl)
  rw [List.map_id'] at hm
  show (match mapOption parseCheckpoint
          ((g.active :: g.parents).map (fun c => Json.num c)) with
        | some (c :: rest) => some (⟨c, rest⟩ : GasState)
        | _ => none) = some g
  rw [hm]

theorem parseKeyed_entriesIn {β : Type} {f : Json → Option β} {g : β → Json}
    {l : List (String × β)} (hfg : ∀ p ∈ l, f (g p.2) = some p.2) :
    parseKeyed f (entriesIn g l) = some l := by
  have hfg' : ∀ p ∈ l,
      (f (g p.2)).map (fun b => (p.1, b)) = some (p.1, p.2) := by
    intro p hp
    rw [hfg p hp]
    rfl
  show mapOption (fun p => (f p.2).map (fun b => (p.1, b)))
      (l.map (fun p => (p.1, g p.2))) = some l
  rw [mapOption_map_eq_some
    (f := fun q : String × Json => (f q.2).map (fun b => (q.1, b)))
    (g := fun p : String × β => (p.1, g p.2))
    (h := fun p : String × β => (p.1, p.2)) (l := l) hfg']
  simp

/-- The keyed-object form produced by `normalize` parses back to exactly
the state it came from. -/
theorem parseState_input (st : WorldState)
    (hit : ∀ p ∈ st.storage, (p : String × ContractStorage).2.iterators = []) :
    parseState (stateToInputJson st) = some st := by
  show (match parseKeyed parseContractStorage (entriesIn contractStorageToInputJson st.storage),
        parseKeyed parseBytes (entriesIn bytesToJson st.codes),
        parseKeyed parseContractInfo (entriesIn contractInfoToJson st.contracts),
        parseNat (.num st.next_account_id), parseNat (.num st.transaction_depth),
        parseGas (gasToJson st.gas) with
        | some storage, some codes, some contracts, some nid, some dep, some gas =>
          some (⟨storage, codes, contracts, nid, dep, gas⟩ : WorldState)
        | _, _, _, _, _, _ => none) = some st
  rw [parseKeyed_entriesIn (f := parseContractStorage) (g := contractStorageToInputJson)
      (fun p hp => parseContractStorage_in p.2 (hit p hp)),
    parseKeyed_entriesIn (f := parseBytes) (g := bytesToJson)
      (fun p _ => parseBytes_bytesToJson p.2),
    parseKeyed_entriesIn (f := parseContractInfo) (g := contractInfoToJson)
      (fun p _ => parseContractInfo_in p.2),
    parseNat_num, parseNat_num, parseGas_in]

/-- A successful dispatch returns a state whose iterator arenas are all
empty (iterators are call-scoped and closed at call end), provided the
input state's arenas were empty. -/
theorem dispatch_iterators_empty {α : Type} {ro : Bool} {prog : Guest α} {addr : String}
    {st : WorldState} {r : α} {st' : WorldState}
    (hit : ∀ p ∈ st.storage, (p : String × ContractStorage).2.iterators = [])
    (h : dispatch ro prog addr st = .ok (r, st')) :
    ∀ p ∈ st'.storage, (p : String × ContractStorage).2.iterators = [] := by
  obtain ⟨info, code, cs', g', -, -, -, -, -, hs, -, -, -, -, -⟩ := dispatch_ok_spec h
  intro p hp
  rw [hs] at hp
  rcases mem_setStorage hp with rfl | hp
  · rfl
  · exact hit _ hp

/-- After a successful dispatch, a further call on the same contract never
fails with `InputError`: the registries are preserved, so validation still
finds the contract and its code, and no later stage raises `InputError`. -/
theorem dispatch_not_inputError {α β : Type} {ro ro2 : Bool} {prog : Guest α}
    {addr : String} {st : WorldState} {r : α} {st' : WorldState}
    (h : dispatch ro prog addr st = .ok (r, st')) (prog2 : Guest β) :
    dispatch ro2 prog2 addr st' ≠ .error .InputError := by
  obtain ⟨info, code, cs', g', hinfo, hcode, -, -, -, -, hc, hco, -, -, -⟩ :=
    dispatch_ok_spec h
  intro hbad
  simp only [dispatch, hco, hinfo, hc, hcode] at hbad
  split at hbad
  · simp at hbad
  · split at hbad
    · simp at hbad
    · split at hbad
      · rename_i hint
        cases hbad
        rcases interp_error_kinds _ hint with h' | h' | h' | ⟨m, h'⟩ <;> cases h'
      · simp at hbad

/-- Claim C8 counterexample: the instantiate of scenario 1 succeeds, yet
the state it returns — serialized as the entry points return it — does not
have `storage`, `codes` and `contracts` as keyed objects (they are entry
lists, which is exactly why `src/index.js` must pass the result through
`Object.fromEntries`). -/
theorem claim_c8_counterexample :
    (vm_instantiate senderKey addressKey [] initialState cw20_code picassoMsg).map
      (fun p => keyedObjectShape (stateToOutputJson p.1)) = .ok false := rfl

/-- Claim C8 as amended: the state returned by an entry point represents
`storage`, `codes` and `contracts` as entry lists, not keyed objects;
applying the harness's `normalize` to it yields exactly the documented
keyed-object stateJSON input shape. -/
theorem claim_c8_amended :
    ∀ (st : WorldState),
      (∀ p ∈ st.storage, (p : String × ContractStorage).2.iterators = []) →
      keyedObjectShape (stateToOutputJson st) = false
      ∧ normalizeJson (stateToOutputJson st) = some (stateToInputJson st)
      ∧ keyedObjectShape (stateToInputJson st) = true := by
  intro st hit
  refine ⟨rfl, normalizeJson_output st hit, rfl⟩

/-- Witness for the amended C8 at the instantiated scenario state. -/
theorem claim_c8_amended_witness :
    keyedObjectShape (stateToOutputJson state1) = false
    ∧ normalizeJson (stateToOutputJson state1) = some (stateToInputJson state1)
    ∧ keyedObjectShape (stateToInputJson state1) = true :=
  claim_c8_amended state1 (by decide)

/-- Claim C10: the state a successful call returns, converted back to
keyed objects by `normalize`, parses as a valid stateJSON equal to that
state, and a subsequent call (execute or query, any guest) on the same
contract never fails with `InputError`. -/
theorem claim_c10 :
    ∀ {α : Type} (prog : Guest α) (addr : String) (st : WorldState) (r : α)
      (st' : WorldState),
      (∀ p ∈ st.storage, (p : String × ContractStorage).2.iterators = []) →
      dispatch false prog addr st = .ok (r, st') →
        (normalizeJson (stateToOutputJson st')).bind parseState = some st'
        ∧ (∀ {β : Type} (ro2 : Bool) (prog2 : Guest β),
            dispatch ro2 prog2 addr st' ≠ .error .InputError) := by
  intro α prog addr st r st' hit h
  have hit' := dispatch_iterators_empty hit h
  refine ⟨?_, fun ro2 prog2 => dispatch_not_inputError h prog2⟩
  rw [normalizeJson_output st' hit']
  show parseState (stateToInputJson st') = some st'
  exact parseState_input st' hit'

/-- Witness for C10 at the scenario instantiate: the returned state
round-trips through `normalize` and parsing, and a query on it does not
fail with `InputError`. -/
theorem claim_c10_witness :
    (normalizeJson (stateToOutputJson state1)).bind parseState = some state1
    ∧ dispatch false queryProg addressKey state1 ≠ .error .InputError :=
  ⟨(claim_c10 instProg addressKey initialState state1Events state1 (by decide) rfl).1,
   (claim_c10 instProg addressKey initialState state1Events state1 (by decide) rfl).2
     false queryProg⟩

end CosmWebWasm
